import Mathlib

/-!
Shallow embedding of `memtester.c` (ticpu/memtester, memtester version 4.5.1).

The embedding covers: the huge-page allocation path (`alloc_using_hugepages`),
the heap allocation path (`alloc_using_malloc` and main's `while (!done_mem)`
loop), the physical-device path, page alignment, the buffer split into two
halves, and the per-loop test driver of `main`.

Modelling conventions:
* `size_t` values are `Nat` with explicit wrap-around `% 2^64` where the C
  code can underflow (`wantbytes -= pagesize`), via `subSize`.
* The C field `int bufsize` is an `Int`; the assignment
  `alloc->bufsize = alloc->wantbytes;` (size_t to int) is modelled by the
  two's-complement conversion `toCInt`, and conversion back to `size_t`
  parameters (`mlock` length, `halflen`) by `toSizeT`.
* Syscall and library-call outcomes (`mmap`, `malloc`, `mlock`, `open`,
  `fscanf` of free_hugepages) and the externally implemented test functions of
  tests.c (their pass/fail result) are supplied by an environment `Env`.
* `while` loops become fuel-indexed recursions returning `Option`; `none`
  means the fuel ran out before the loop exited.
* `exit(code)` becomes `Except.error code`.
-/

namespace Memtester

/-- The modulus 2^64 of `size_t` arithmetic. -/
def SIZE_MOD : Nat := 2 ^ 64

/-- The modulus 2^32 of `int` arithmetic. -/
def INT_MOD : Nat := 2 ^ 32

/-- Unsigned `size_t` subtraction `a - b` with the wrap-around of C unsigned
arithmetic (both arguments are kept below `2^64`). -/
def subSize (a b : Nat) : Nat := (a + (SIZE_MOD - b % SIZE_MOD)) % SIZE_MOD

/-- Conversion of a `size_t` value to the C `int` field `bufsize`
(two's-complement truncation to 32 bits, as gcc implements it). -/
def toCInt (n : Nat) : Int :=
  if n % INT_MOD < 2 ^ 31 then (n % INT_MOD : Nat) else (n % INT_MOD : Nat) - (INT_MOD : Int)

/-- Conversion of a C `int` value back to `size_t` (e.g. when `bufsize` is
passed as the `size_t` length argument of `mlock`, or assigned to the
`size_t` variable `halflen`). -/
def toSizeT (i : Int) : Nat := (i % (SIZE_MOD : Nat)).toNat

/-- The constant `EXIT_FAIL_NONSTARTER 0x01` (memtester.c line 33). -/
def EXIT_FAIL_NONSTARTER : Nat := 0x01

/-- The constant `EXIT_FAIL_ADDRESSLINES 0x02` (memtester.c line 34). -/
def EXIT_FAIL_ADDRESSLINES : Nat := 0x02

/-- The constant `EXIT_FAIL_OTHERTEST 0x04` (memtester.c line 35). -/
def EXIT_FAIL_OTHERTEST : Nat := 0x04

/-- The stdlib.h constant `EXIT_FAILURE`, used by `alloc_using_hugepages` on an
unexpected `mmap` failure. Its value is 1, the same number as
`EXIT_FAIL_NONSTARTER`. -/
def EXIT_FAILURE : Nat := 1

/-- The word size `sizeof(ul)`: the tests operate on `unsigned long` words; on the 64-bit
build modelled here (`UL_LEN` = 64, types.h) a word is 8 bytes. -/
def sizeof_ul : Nat := 8

/-- The `struct memory_alloc` of memtester.c (lines 60-69).  `buf` and
`aligned` are addresses; `buf = none` models a NULL pointer.  `bufsize` is
the C `int` field. -/
structure MemoryAlloc where
  buf : Option Nat
  aligned : Nat
  wantbytes : Nat
  bufsize : Int
  do_mlock : Bool
  use_hugepages : Bool
  pagesize : Nat
deriving DecidableEq, Repr

/-- Errno values distinguished by the `switch` in `alloc_using_malloc`. -/
inductive Errno where
  | EAGAIN
  | ENOMEM
  | EPERM
  | otherErr
deriving DecidableEq, Repr

/-- Outcome of one `mmap` attempt in the huge-page loop: success with an
address, failure with `errno == ENOMEM`, or failure with another errno. -/
inductive MmapOutcome where
  | success (addr : Nat)
  | enomem
  | otherfail
deriving DecidableEq, Repr

/-- The environment: outcomes of all external calls the modelled code makes.
`hugeMmap n` is the outcome of the (n+1)-th huge-page `mmap` attempt;
`malloc n` is the address returned for a request of `n` bytes (`none` =
NULL); `mlock a l` is the result of `mlock(a, l)` (`none` = success);
`stuckFail l` / `testFail l i` tell whether `test_stuck_address` / the
`i`-th entry of `tests[]` reports a failure in loop iteration `l`. -/
structure Env where
  sysconf_pagesize : Nat
  free_hugepages : Int
  hugeMmap : Nat → MmapOutcome
  malloc : Nat → Option Nat
  mlock : Nat → Nat → Option Errno
  openOk : Bool
  physMmap : Nat → Option Nat
  stuckFail : Nat → Bool
  testFail : Nat → Nat → Bool

/-- The function `memtester_pagesize` (lines 85-99): 2 MB in huge-page mode, otherwise
`sysconf(_SC_PAGE_SIZE)`. -/
def memtester_pagesize (use_hugepages : Bool) (sysconf_ps : Nat) : Nat :=
  if use_hugepages then 2 * 1024 * 1024 else sysconf_ps

/-- The command-line configuration main works from (after the out-of-scope
argument parsing): requested byte count, loop count (0 = forever), test
selection mask, and the `-p` / `-H` flags. -/
structure Config where
  wantbytes_orig : Nat
  loops : Nat
  testmask : Nat
  use_phys : Bool
  use_hugepages : Bool
deriving DecidableEq, Repr

/-- The initial `memory_alloc_t` of `main` (initializer lines 264-271,
`memtester_pagesize` call line 273 / 301, and the assignment
`alloc.wantbytes = wantbytes_orig` at line 392): NULL buffer, `bufsize = 0`,
`do_mlock = 1`. -/
def initAlloc (cfg : Config) (env : Env) : MemoryAlloc :=
  { buf := none
    aligned := 0
    wantbytes := cfg.wantbytes_orig
    bufsize := 0
    do_mlock := true
    use_hugepages := cfg.use_hugepages
    pagesize := memtester_pagesize cfg.use_hugepages env.sysconf_pagesize }

/-- The shrink rule of the huge-page loop's ENOMEM branch (lines 163-167):
if the free-hugepage count is positive and the outstanding request exceeds
that many pages, clamp to exactly that many pages, else shrink by one
page. -/
def hugeShrink (free : Int) (ps w : Nat) : Nat :=
  if 0 < free ∧ free.toNat * ps < w then free.toNat * ps else subSize w ps

/-- Rounding of the request up to a multiple of the (huge) page size
(lines 152-154). -/
def roundUpPage (w ps : Nat) : Nat :=
  if w % ps ≠ 0 then (w / ps + 1) * ps else w

/-- The `while (!alloc->buf && alloc->wantbytes)` loop of
`alloc_using_hugepages` (lines 156-180).  `attempt` numbers the `mmap`
calls so the environment can give each attempt its own outcome.  On ENOMEM
the request is shrunk by `hugeShrink` (using the free-hugepage count read
once before the loop) and, if the shrunk request is below one page, the
loop `break`s — the function then returns normally with a NULL buffer.  On
any other `mmap` failure the program exits with `EXIT_FAILURE`. -/
def hugeLoop (env : Env) : Nat → Nat → MemoryAlloc → Option (Except Nat MemoryAlloc)
  | _, 0, _ => none
  | attempt, fuel + 1, st =>
    if st.buf = none ∧ st.wantbytes ≠ 0 then
      match env.hugeMmap attempt with
      | .success a => some (.ok { st with buf := some a })
      | .enomem =>
        let w := hugeShrink env.free_hugepages st.pagesize st.wantbytes
        if w < st.pagesize then some (.ok { st with wantbytes := w })
        else hugeLoop env (attempt + 1) fuel { st with wantbytes := w }
      | .otherfail => some (.error EXIT_FAILURE)
    else some (.ok st)

/-- The function `alloc_using_hugepages` (lines 149-182): read the kernel's free
huge-page count once (`get_free_hugepages`, supplied by the environment),
round the request up to a multiple of the page size, then run the mmap
loop. -/
def alloc_using_hugepages (env : Env) (fuel : Nat) (st : MemoryAlloc) :
    Option (Except Nat MemoryAlloc) :=
  hugeLoop env 0 fuel { st with wantbytes := roundUpPage st.wantbytes st.pagesize }

/-- The page-alignment adjustment that appears twice in memtester.c: inside
`alloc_using_malloc` (lines 196-206) and again in `main` (lines 462-472).
If the buffer start is not page-aligned, `aligned` becomes
`(buf & pagesizemask) + pagesize` (for the power-of-two page sizes the
program obtains, `buf & ~(pagesize-1) = buf / pagesize * pagesize`) and the
skipped prefix is subtracted from `bufsize`; otherwise `aligned = buf`.
A NULL buffer is address 0, which is page-aligned. -/
def pageAlignAdjust (st : MemoryAlloc) : MemoryAlloc :=
  let bufaddr := st.buf.getD 0
  if bufaddr % st.pagesize ≠ 0 then
    let aligned := bufaddr / st.pagesize * st.pagesize + st.pagesize
    { st with aligned := aligned, bufsize := st.bufsize - ((aligned : Int) - (bufaddr : Int)) }
  else
    { st with aligned := bufaddr }

/-- The `while (!alloc->buf && alloc->wantbytes)` malloc loop of
`alloc_using_malloc` (lines 185-188): on a NULL return shrink by one page
and retry. -/
def mallocLoop (env : Env) : Nat → MemoryAlloc → Option MemoryAlloc
  | 0, _ => none
  | fuel + 1, st =>
    if st.buf = none ∧ st.wantbytes ≠ 0 then
      match env.malloc st.wantbytes with
      | some a => some { st with buf := some a }
      | none => mallocLoop env fuel { st with wantbytes := subSize st.wantbytes st.pagesize }
    else some st

/-- The function `alloc_using_malloc` (lines 184-245).  After the malloc loop,
`bufsize = wantbytes` (size_t narrowed to int).  With `do_mlock` set the
buffer is page-aligned and `mlock(aligned, bufsize)` attempted:
EAGAIN/ENOMEM free the buffer, shrink the request one page and return 0
(not done, retried by main); EPERM clears `do_mlock`, frees the buffer,
resets the request to `wantbytes_orig` and returns 0; any other errno
clears `do_mlock` and returns 1 keeping the buffer; success returns 1.
The returned `Bool` is the C return value (`true` = 1 = done_mem). -/
def alloc_using_malloc (env : Env) (fuel : Nat) (st : MemoryAlloc)
    (wantbytes_orig : Nat) : Option (MemoryAlloc × Bool) :=
  match mallocLoop env fuel st with
  | none => none
  | some st1 =>
    let st2 := { st1 with bufsize := toCInt st1.wantbytes }
    if st2.do_mlock then
      let st3 := pageAlignAdjust st2
      match env.mlock st3.aligned (toSizeT st3.bufsize) with
      | none => some (st3, true)
      | some .EAGAIN =>
        some ({ st3 with buf := none, wantbytes := subSize st3.wantbytes st3.pagesize }, false)
      | some .ENOMEM =>
        some ({ st3 with buf := none, wantbytes := subSize st3.wantbytes st3.pagesize }, false)
      | some .EPERM =>
        some ({ st3 with do_mlock := false, buf := none, wantbytes := wantbytes_orig }, false)
      | some .otherErr => some ({ st3 with do_mlock := false }, true)
    else some (st2, true)

/-- Main's `while (!done_mem) done_mem = alloc_using_malloc(...)` loop
(lines 452-454). -/
def doneMemLoop (env : Env) : Nat → Nat → MemoryAlloc → Nat → Option MemoryAlloc
  | 0, _, _, _ => none
  | fuelO + 1, fuelI, st, orig =>
    match alloc_using_malloc env fuelI st orig with
    | none => none
    | some (st1, true) => some st1
    | some (st1, false) => doneMemLoop env fuelO fuelI st1 orig

/-- The physical-device path of `main` (lines 423-447): open the device
(failure is a non-starter exit), `mmap` the fixed physical base at exactly
`wantbytes` bytes (failure is a non-starter exit), `mlock` the whole
mapping (failure merely clears `do_mlock`), then `bufsize = wantbytes`
("accept no less"), `aligned = buf`, `done_mem = 1`. -/
def physAcquire (env : Env) (st : MemoryAlloc) : Except Nat MemoryAlloc :=
  if !env.openOk then .error EXIT_FAIL_NONSTARTER
  else
    match env.physMmap st.wantbytes with
    | none => .error EXIT_FAIL_NONSTARTER
    | some a =>
      let st1 := { st with buf := some a }
      let st2 := if (env.mlock a st1.wantbytes).isSome then { st1 with do_mlock := false } else st1
      .ok { st2 with bufsize := toCInt st2.wantbytes, aligned := a }

/-- The value `maxbytes = (size_t) -1` (line 255). -/
def maxbytes : Nat := SIZE_MOD - 1

/-- The value `maxmb = (maxbytes >> 20) + 1` (line 256). -/
def maxmb : Nat := (maxbytes >>> 20) + 1

/-- The memory-acquisition portion of `main` (lines 392-477): the two
up-front size checks (`wantmb > maxmb`, `wantbytes < pagesize`, both fatal
non-starters), the physical-device path when `-p` was given, then the
huge-page path (`-H`) or the `done_mem` malloc loop, and finally the
page-alignment adjustment of lines 462-472.  The result is the state from
which the buffer split and the test loop proceed. -/
def mainAcquire (cfg : Config) (env : Env) (fuelH fuelI fuelO : Nat) :
    Option (Except Nat MemoryAlloc) :=
  let st0 := initAlloc cfg env
  if cfg.wantbytes_orig >>> 20 > maxmb then some (.error EXIT_FAIL_NONSTARTER)
  else if st0.wantbytes < st0.pagesize then some (.error EXIT_FAIL_NONSTARTER)
  else
    match (if cfg.use_phys then physAcquire env st0 else .ok st0 : Except Nat MemoryAlloc),
        (cfg.use_phys : Bool) with
    | .error c, _ => some (.error c)
    | .ok st1, doneMem =>
      let afterAlloc : Option (Except Nat MemoryAlloc) :=
        if st1.use_hugepages then alloc_using_hugepages env fuelH st1
        else if doneMem then some (.ok st1)
        else (doneMemLoop env fuelO fuelI st1 cfg.wantbytes_orig).map .ok
      match afterAlloc with
      | none => none
      | some (.error c) => some (.error c)
      | some (.ok st2) => some (.ok (pageAlignAdjust st2))

/-- The split point `halflen = alloc.bufsize / 2` (line 474): C `int` division, the result
assigned to the `size_t` variable `halflen`. -/
def halflenOf (st : MemoryAlloc) : Nat := toSizeT (Int.tdiv st.bufsize 2)

/-- The word count `count = halflen / sizeof(ul)` (line 475). -/
def countOf (st : MemoryAlloc) : Nat := halflenOf st / sizeof_ul

/-- The first half pointer `bufa = (ulv *) alloc.aligned` (line 476). -/
def bufaOf (st : MemoryAlloc) : Nat := st.aligned

/-- The second half pointer `bufb = (ulv *) ((size_t) alloc.aligned + halflen)` (line 477). -/
def bufbOf (st : MemoryAlloc) : Nat := (st.aligned + halflenOf st) % SIZE_MOD

/-- The first half of the buffer pair as a (start, length) byte range. -/
def halfA (st : MemoryAlloc) : Nat × Nat := (bufaOf st, halflenOf st)

/-- The second half of the buffer pair as a (start, length) byte range. -/
def halfB (st : MemoryAlloc) : Nat × Nat := (bufbOf st, halflenOf st)

/-- The count `alloc.bufsize / sizeof(ul)` handed to
`test_stuck_address` (line 487): C `int` division narrowed to the `size_t`
parameter. -/
def stuckCountOf (st : MemoryAlloc) : Nat := toSizeT (Int.tdiv st.bufsize (sizeof_ul : Int))

/-- The names of the `tests[]` table (lines 37-58), in table order, for the
build without `TEST_NARROW_WRITES` (the two narrow-write entries are
conditionally compiled and not part of the sources provided). -/
def testsTable : List String :=
  ["Random Value", "Compare XOR", "Compare SUB", "Compare MUL", "Compare DIV",
   "Compare OR", "Compare AND", "Sequential Increment", "Solid Bits",
   "Block Sequential", "Checkerboard", "Bit Spread", "Bit Flip",
   "Walking Ones", "Walking Zeroes"]

/-- The run condition of the test-selection `continue` (line 497):
test `i` runs iff the mask is 0 or bit `i` of the mask is set
(`!(testmask && !((1 << i) & testmask))`). -/
def testSelected (tm i : Nat) : Bool := tm == 0 || (1 <<< i) &&& tm != 0

/-- The indices of the tests a given mask lets run, in table order. -/
def selectedIndices (tm : Nat) : List Nat :=
  (List.range testsTable.length).filter (testSelected tm)

/-- One recorded test invocation: either the stuck-address test (with its
buffer address and word count) or a pattern test (with its table index,
both buffer addresses and the word count). -/
inductive Invo where
  | stuckAddr (loopIdx addr count : Nat)
  | patTest (loopIdx idx bufa bufb count : Nat)
deriving DecidableEq, Repr

/-- The word count an invocation was given. -/
def Invo.count : Invo → Nat
  | .stuckAddr _ _ c => c
  | .patTest _ _ _ _ c => c

/-- Whether an invocation is the stuck-address test. -/
def Invo.isStuck : Invo → Bool
  | .stuckAddr _ _ _ => true
  | .patTest _ _ _ _ _ => false

/-- One pass of the loop body of `main` (lines 485-510): run
`test_stuck_address(aligned, bufsize/sizeof(ul))`, OR
`EXIT_FAIL_ADDRESSLINES` into the exit code on failure, then walk the
`tests[]` table, skipping entries the mask rules out, invoking each kept
test over `(bufa, bufb, count)` and ORing `EXIT_FAIL_OTHERTEST` into the
exit code on failure.  Returns the updated exit code and the list of
invocations made. -/
def runPass (env : Env) (tm : Nat) (st : MemoryAlloc) (l : Nat) (ec : Nat) :
    Nat × List Invo :=
  (List.range testsTable.length).foldl
    (fun acc i =>
      if testSelected tm i then
        (acc.1 ||| (if env.testFail l i then EXIT_FAIL_OTHERTEST else 0),
         acc.2 ++ [Invo.patTest l i (bufaOf st) (bufbOf st) (countOf st)])
      else acc)
    (ec ||| (if env.stuckFail l then EXIT_FAIL_ADDRESSLINES else 0),
     [Invo.stuckAddr l st.aligned (stuckCountOf st)])

/-- The test loop of `main` (lines 479-513):
`for (loop=1; ((!loops) || loop <= loops); loop++)`.  Fuel-indexed; `none`
means the loop had not exited within the given fuel (in particular, with
`loops = 0` it never exits). -/
def testLoop (env : Env) (tm : Nat) (st : MemoryAlloc) (loops : Nat) :
    Nat → Nat → Nat → List Invo → Option (Nat × List Invo)
  | 0, _, _, _ => none
  | fuel + 1, l, ec, tr =>
    if loops = 0 ∨ l ≤ loops then
      let p := runPass env tm st l ec
      testLoop env tm st loops fuel (l + 1) p.1 (tr ++ p.2)
    else some (ec, tr)

/-- Main from the point the sizes are known (line 392) to `exit(exit_code)`
(line 517): acquisition, buffer split, test loop.  The result is the early
exit code (`Except.error`) or the final exit code together with the trace of
test invocations and the final allocation state. -/
def mainRun (cfg : Config) (env : Env) (fuelH fuelI fuelO fuelL : Nat) :
    Option (Except Nat (Nat × List Invo × MemoryAlloc)) :=
  match mainAcquire cfg env fuelH fuelI fuelO with
  | none => none
  | some (.error c) => some (.error c)
  | some (.ok st) =>
    match testLoop env cfg.testmask st cfg.loops fuelL 1 0 [] with
    | none => none
    | some (ec, tr) => some (.ok (ec, tr, st))

/-- The exit bits one pass contributes: `EXIT_FAIL_ADDRESSLINES` when the
stuck-address test failed in that loop, ORed with `EXIT_FAIL_OTHERTEST`
when any selected pattern test failed in that loop. -/
def passExitOne (env : Env) (tm l : Nat) : Nat :=
  (if env.stuckFail l then EXIT_FAIL_ADDRESSLINES else 0) |||
    (if (selectedIndices tm).any (fun i => env.testFail l i) then EXIT_FAIL_OTHERTEST else 0)

/-- The invocations one pass makes: the stuck-address test followed by the
selected pattern tests in table order, each over `(bufa, bufb, count)`. -/
def passInvos (tm : Nat) (st : MemoryAlloc) (l : Nat) : List Invo :=
  Invo.stuckAddr l st.aligned (stuckCountOf st) ::
    (selectedIndices tm).map (fun i => Invo.patTest l i (bufaOf st) (bufbOf st) (countOf st))

/-- The exit bits of `n` consecutive passes starting at loop index `l`. -/
def passesExit (env : Env) (tm l n : Nat) : Nat :=
  (List.range' l n).foldr (fun j acc => passExitOne env tm j ||| acc) 0

/-- The invocation trace of `n` consecutive passes starting at loop index
`l`. -/
def passesTrace (tm : Nat) (st : MemoryAlloc) (l n : Nat) : List Invo :=
  (List.range' l n).foldr (fun j acc => passInvos tm st j ++ acc) []


/-! ### Concrete configurations, environments and states used by the
witnesses and counterexamples below -/

/-- A base environment: every allocation call fails, every `mlock`
succeeds, the device cannot be opened, no test reports a failure, the
free-hugepage count is 0, the system page size is 4096. -/
def env0 : Env :=
  { sysconf_pagesize := 4096
    free_hugepages := 0
    hugeMmap := fun _ => .enomem
    malloc := fun _ => none
    mlock := fun _ _ => none
    openOk := false
    physMmap := fun _ => none
    stuckFail := fun _ => false
    testFail := fun _ _ => false }

/-- Environment whose `malloc` grants a 4097-byte request at the
page-aligned address 8192. -/
def envC1 : Env := { env0 with malloc := fun n => if n = 4097 then some 8192 else none }

/-- Heap-mode request of 4097 bytes (`4097B` on the command line), one
loop. -/
def cfgC1 : Config :=
  { wantbytes_orig := 4097, loops := 1, testmask := 0x8000, use_phys := false, use_hugepages := false }

/-- The acquisition state the run of `cfgC1` under `envC1` ends in. -/
def stC1 : MemoryAlloc :=
  { buf := some 8192, aligned := 8192, wantbytes := 4097, bufsize := 4097, do_mlock := true,
    use_hugepages := false, pagesize := 4096 }

/-- Environment where `malloc` grants a 2^31-byte request at the
page-aligned address 4096. -/
def envC1big : Env := { env0 with malloc := fun n => if n = 2147483648 then some 4096 else none }

/-- Heap-mode request of exactly 2^31 bytes. -/
def cfgC1big : Config :=
  { wantbytes_orig := 2147483648, loops := 1, testmask := 0x8000, use_phys := false,
    use_hugepages := false }

/-- The acquisition state the run of `cfgC1big` under `envC1big` ends in:
the `size_t` request 2^31 narrowed into the `int` field `bufsize` wraps to
-2^31. -/
def stC1big : MemoryAlloc :=
  { buf := some 4096, aligned := 4096, wantbytes := 2147483648, bufsize := -2147483648,
    do_mlock := true, use_hugepages := false, pagesize := 4096 }

/-- Environment whose `malloc` grants an 8192-byte request at the
page-aligned address 16384. -/
def envW1 : Env := { env0 with malloc := fun n => if n = 8192 then some 16384 else none }

/-- Heap-mode request of two pages. -/
def cfgW1 : Config := { cfgC1 with wantbytes_orig := 8192 }

/-- Heap-mode request of 100 bytes (below one page). -/
def cfgW1b : Config := { cfgC1 with wantbytes_orig := 100 }

/-- The acquisition state the run of `cfgW1` under `envW1` ends in. -/
def stW1 : MemoryAlloc :=
  { buf := some 16384, aligned := 16384, wantbytes := 8192, bufsize := 8192, do_mlock := true,
    use_hugepages := false, pagesize := 4096 }

/-- Huge-page-mode request of exactly one huge page (2 MB), one loop. -/
def cfgC2 : Config :=
  { wantbytes_orig := 2097152, loops := 1, testmask := 0x8000, use_phys := false, use_hugepages := true }

/-- The acquisition state the huge-page run of `cfgC2` under `env0` (every
mmap fails with ENOMEM) ends in: no buffer, request shrunk to 0. -/
def stC2 : MemoryAlloc :=
  { buf := none, aligned := 0, wantbytes := 0, bufsize := 0, do_mlock := true,
    use_hugepages := true, pagesize := 2097152 }

/-- A small huge-page-mode state (page size 4, request 10 bytes) for the
amended-C2 witness. -/
def stC2w : MemoryAlloc :=
  { buf := none, aligned := 3, wantbytes := 10, bufsize := 7, do_mlock := true,
    use_hugepages := true, pagesize := 4 }

/-- One free huge page; the first mmap attempt fails with ENOMEM, the
second succeeds at address 64. -/
def envC2i : Env := { env0 with
  free_hugepages := 1
  hugeMmap := fun n => if n < 1 then .enomem else .success 64 }

/-- No free huge pages and every mmap attempt fails with ENOMEM. -/
def envC2ii : Env := env0

/-- The pre-allocation state for the C3 witnesses: two pages wanted,
pinning requested. -/
def stC3 : MemoryAlloc :=
  { buf := none, aligned := 0, wantbytes := 8192, bufsize := 0, do_mlock := true,
    use_hugepages := false, pagesize := 4096 }

/-- Environment where `malloc` grants 8192 bytes at aligned address 16384 and `mlock` fails
with EAGAIN. -/
def envC3E : Env := { env0 with
  malloc := fun n => if n = 8192 then some 16384 else none
  mlock := fun _ _ => some .EAGAIN }

/-- Like `envC3E` but `mlock` fails with EPERM. -/
def envC3P : Env := { envC3E with mlock := fun _ _ => some .EPERM }

/-- Like `envC3E` but `mlock` fails with an unrecognized errno. -/
def envC3U : Env := { envC3E with mlock := fun _ _ => some .otherErr }

/-- Environment where `malloc` grants a 12289-byte request at the page-aligned address
40960. -/
def envC4 : Env := { env0 with malloc := fun n => if n = 12289 then some 40960 else none }

/-- Heap-mode request of 12289 bytes (three pages plus one byte). -/
def cfgC4 : Config := { cfgC1 with wantbytes_orig := 12289 }

/-- The acquisition state the run of `cfgC4` under `envC4` ends in:
`bufsize` is the odd number 12289. -/
def stC4 : MemoryAlloc :=
  { buf := some 40960, aligned := 40960, wantbytes := 12289, bufsize := 12289, do_mlock := true,
    use_hugepages := false, pagesize := 4096 }

/-- Huge-page mmap succeeds immediately at the 2MB-aligned address 4 MB. -/
def envC9 : Env := { env0 with hugeMmap := fun _ => .success 4194304 }

/-- Huge-page-mode request of 2 MB, one loop, all tests selected. -/
def cfgC9 : Config :=
  { wantbytes_orig := 2097152, loops := 1, testmask := 0, use_phys := false, use_hugepages := true }

/-- The acquisition state of the `cfgC9` / `envC9` run: buffer mapped but
`bufsize` still 0. -/
def stC9 : MemoryAlloc :=
  { buf := some 4194304, aligned := 4194304, wantbytes := 2097152, bufsize := 0, do_mlock := true,
    use_hugepages := true, pagesize := 2097152 }

/-- The invocation trace of the `cfgC9` / `envC9` run: the stuck-address
test and all fifteen pattern tests, each with word count 0. -/
def trC9 : List Invo :=
  Invo.stuckAddr 1 4194304 0 ::
    (List.range 15).map (fun i => Invo.patTest 1 i 4194304 4194304 0)

/-- Environment where `malloc` grants an 8192-byte request at the misaligned address 4100. -/
def envC10 : Env := { env0 with malloc := fun n => if n = 8192 then some 4100 else none }

/-- Heap-mode request of two pages (for the C10 witness). -/
def cfgC10 : Config := { cfgC1 with wantbytes_orig := 8192 }

/-- A split-ready state: aligned two-page buffer at 8192, `bufsize`
8192. -/
def stW5 : MemoryAlloc :=
  { buf := some 8192, aligned := 8192, wantbytes := 8192, bufsize := 8192, do_mlock := true,
    use_hugepages := false, pagesize := 4096 }

/-- Test outcomes: the stuck-address test fails in loop 1 and pattern test
0 fails in loop 2. -/
def envW5 : Env := { env0 with
  stuckFail := fun l => l == 1
  testFail := fun l i => l == 2 && i == 0 }

/-- Physical-device request of two pages at one loop. -/
def cfgC8 : Config :=
  { wantbytes_orig := 8192, loops := 1, testmask := 0x8000, use_phys := true, use_hugepages := false }

/-- The device cannot be opened. -/
def envC8a : Env := env0

/-- The device opens but the physical mapping fails. -/
def envC8b : Env := { env0 with openOk := true }

/-- The device opens, the mapping succeeds at the aligned address 12288,
and `mlock` fails. -/
def envC8c : Env := { env0 with
  openOk := true
  physMmap := fun n => if n = 8192 then some 12288 else none
  mlock := fun _ _ => some .otherErr }

/-! ### Arithmetic helper lemmas -/

theorem toCInt_small {n : Nat} (h : n < 2 ^ 31) : toCInt n = (n : Int) := by
  have h2 : n < INT_MOD := lt_trans h (by norm_num [INT_MOD])
  unfold toCInt
  rw [Nat.mod_eq_of_lt h2, if_pos h]

theorem toSizeT_ofNat {n : Nat} (h : n < SIZE_MOD) : toSizeT (n : Int) = n := by
  have h1 : (n : Int) % ((SIZE_MOD : Nat) : Int) = (n : Int) :=
    Int.emod_eq_of_lt (by positivity) (by exact_mod_cast h)
  rw [toSizeT, h1]
  simp

theorem subSize_eq {a b : Nat} (hba : b ≤ a) (ha : a < SIZE_MOD) : subSize a b = a - b := by
  have hb : b % SIZE_MOD = b := Nat.mod_eq_of_lt (lt_of_le_of_lt hba ha)
  have h1 : a + (SIZE_MOD - b) = (a - b) + SIZE_MOD := by
    have : b ≤ SIZE_MOD := le_of_lt (lt_of_le_of_lt hba ha)
    omega
  rw [subSize, hb, h1, Nat.add_mod_right, Nat.mod_eq_of_lt (by omega)]

/-! ### Invariants of the malloc loop -/

theorem mallocLoop_ok (env : Env) :
    ∀ (fI : Nat) (st st1 : MemoryAlloc), st.buf = none →
      0 < st.pagesize → st.pagesize ∣ st.wantbytes → st.wantbytes < SIZE_MOD →
      mallocLoop env fI st = some st1 →
      st1.aligned = st.aligned ∧ st1.bufsize = st.bufsize ∧ st1.do_mlock = st.do_mlock ∧
      st1.pagesize = st.pagesize ∧ st1.use_hugepages = st.use_hugepages ∧
      st1.wantbytes ≤ st.wantbytes ∧ st.pagesize ∣ st1.wantbytes ∧
      st1.wantbytes < SIZE_MOD ∧
      ((st1.buf = none ∧ st1.wantbytes = 0) ∨
        (env.malloc st1.wantbytes = st1.buf ∧ st1.buf.isSome ∧ st1.wantbytes ≠ 0)) := by
  intro fI
  induction fI with
  | zero => intro st st1 _ _ _ _ h; simp [mallocLoop] at h
  | succ f ih =>
    intro st st1 hbuf hps hdvd hlt h
    rw [mallocLoop] at h
    by_cases hw : st.wantbytes = 0
    · have hcond : ¬(st.buf = none ∧ st.wantbytes ≠ 0) := by simp [hw]
      rw [if_neg hcond] at h
      cases h
      exact ⟨rfl, rfl, rfl, rfl, rfl, le_refl _, hdvd, hlt, Or.inl ⟨hbuf, hw⟩⟩
    · rw [if_pos ⟨hbuf, hw⟩] at h
      cases hm : env.malloc st.wantbytes with
      | some a =>
        rw [hm] at h
        cases h
        exact ⟨rfl, rfl, rfl, rfl, rfl, le_refl _, hdvd, hlt,
          Or.inr ⟨by simpa using hm, by simp, hw⟩⟩
      | none =>
        rw [hm] at h
        have hple : st.pagesize ≤ st.wantbytes := Nat.le_of_dvd (Nat.pos_of_ne_zero hw) hdvd
        have hsub : subSize st.wantbytes st.pagesize = st.wantbytes - st.pagesize :=
          subSize_eq hple hlt
        have h2 := ih { st with wantbytes := subSize st.wantbytes st.pagesize } st1
          (by simp [hbuf]) (by simpa using hps)
          (by simpa [hsub] using Nat.dvd_sub' hdvd (dvd_refl _))
          (by simp only [hsub]; omega) h
        simp only at h2
        refine ⟨h2.1, h2.2.1, h2.2.2.1, h2.2.2.2.1, h2.2.2.2.2.1, ?_, ?_, h2.2.2.2.2.2.2.2.1,
          h2.2.2.2.2.2.2.2.2⟩
        · exact le_trans h2.2.2.2.2.2.1 (by simp only [hsub]; omega)
        · exact h2.2.2.2.2.2.2.1

theorem mallocLoop_basic (env : Env) :
    ∀ (fI : Nat) (st st1 : MemoryAlloc),
      mallocLoop env fI st = some st1 →
      st1.aligned = st.aligned ∧ st1.bufsize = st.bufsize ∧ st1.do_mlock = st.do_mlock ∧
      st1.pagesize = st.pagesize ∧ st1.use_hugepages = st.use_hugepages ∧
      (st1.buf = st.buf ∨
        (env.malloc st1.wantbytes = st1.buf ∧ st1.buf.isSome = true ∧ st1.wantbytes ≠ 0)) := by
  intro fI
  induction fI with
  | zero => intro st st1 h; simp [mallocLoop] at h
  | succ f ih =>
    intro st st1 h
    rw [mallocLoop] at h
    by_cases hcond : st.buf = none ∧ st.wantbytes ≠ 0
    · rw [if_pos hcond] at h
      cases hm : env.malloc st.wantbytes with
      | some a =>
        rw [hm] at h
        cases h
        exact ⟨rfl, rfl, rfl, rfl, rfl, Or.inr ⟨by simpa using hm, by simp, hcond.2⟩⟩
      | none =>
        rw [hm] at h
        have h2 := ih { st with wantbytes := subSize st.wantbytes st.pagesize } st1 h
        simp only at h2
        exact ⟨h2.1, h2.2.1, h2.2.2.1, h2.2.2.2.1, h2.2.2.2.2.1, h2.2.2.2.2.2⟩
    · rw [if_neg hcond] at h
      cases h
      exact ⟨rfl, rfl, rfl, rfl, rfl, Or.inl rfl⟩

/-! ### Invariants of the huge-page loop -/

theorem hugeLoop_error (env : Env) :
    ∀ (fuel att : Nat) (st : MemoryAlloc) (c : Nat),
      hugeLoop env att fuel st = some (.error c) → c = EXIT_FAILURE := by
  intro fuel
  induction fuel with
  | zero => intro att st c h; simp [hugeLoop] at h
  | succ f ih =>
    intro att st c h
    rw [hugeLoop] at h
    split at h
    · cases hm : env.hugeMmap att with
      | success a => rw [hm] at h; cases h
      | enomem =>
        rw [hm] at h
        simp only at h
        split at h
        · cases h
        · exact ih _ _ _ h
      | otherfail => rw [hm] at h; cases h; rfl
    · cases h

theorem hugeLoop_inv (env : Env) :
    ∀ (fuel att : Nat) (st st1 : MemoryAlloc),
      hugeLoop env att fuel st = some (.ok st1) →
      st1.bufsize = st.bufsize ∧ st1.aligned = st.aligned ∧ st1.do_mlock = st.do_mlock ∧
      st1.pagesize = st.pagesize ∧ st1.use_hugepages = st.use_hugepages ∧
      (st1.buf = st.buf ∨ ∃ n a, env.hugeMmap n = .success a ∧ st1.buf = some a) := by
  intro fuel
  induction fuel with
  | zero => intro att st st1 h; simp [hugeLoop] at h
  | succ f ih =>
    intro att st st1 h
    rw [hugeLoop] at h
    split at h
    · cases hm : env.hugeMmap att with
      | success a =>
        rw [hm] at h
        cases h
        exact ⟨rfl, rfl, rfl, rfl, rfl, Or.inr ⟨att, a, hm, rfl⟩⟩
      | enomem =>
        rw [hm] at h
        simp only at h
        split at h
        · cases h
          exact ⟨rfl, rfl, rfl, rfl, rfl, Or.inl rfl⟩
        · have h2 := ih (att + 1) _ _ h
          simp only at h2
          exact ⟨h2.1, h2.2.1, h2.2.2.1, h2.2.2.2.1, h2.2.2.2.2.1, h2.2.2.2.2.2⟩
      | otherfail => rw [hm] at h; cases h
    · cases h
      exact ⟨rfl, rfl, rfl, rfl, rfl, Or.inl rfl⟩

theorem hugeLoop_enomem_run (env : Env) :
    ∀ (k att fuel : Nat) (st : MemoryAlloc) (a : Nat), st.buf = none →
      0 < st.pagesize →
      (∀ i, i < k → env.hugeMmap (att + i) = .enomem) →
      env.hugeMmap (att + k) = .success a →
      (∀ i, i ≤ k →
        st.pagesize ≤ (hugeShrink env.free_hugepages st.pagesize)^[i] st.wantbytes) →
      k < fuel →
      hugeLoop env att fuel st = some (.ok { st with
        buf := some a
        wantbytes := (hugeShrink env.free_hugepages st.pagesize)^[k] st.wantbytes }) := by
  intro k
  induction k with
  | zero =>
    intro att fuel st a hbuf hps _ hsucc hiter hfuel
    obtain ⟨f, rfl⟩ : ∃ f, fuel = f + 1 := ⟨fuel - 1, by omega⟩
    rw [hugeLoop]
    have hw : st.wantbytes ≠ 0 := by
      have := hiter 0 (le_refl 0)
      simp only [Function.iterate_zero_apply] at this
      omega
    rw [if_pos ⟨hbuf, hw⟩]
    have h0 : env.hugeMmap (att + 0) = .success a := hsucc
    rw [Nat.add_zero] at h0
    rw [h0]
    simp [Function.iterate_zero_apply]
  | succ n ih =>
    intro att fuel st a hbuf hps henomem hsucc hiter hfuel
    obtain ⟨f, rfl⟩ : ∃ f, fuel = f + 1 := ⟨fuel - 1, by omega⟩
    rw [hugeLoop]
    have hw : st.wantbytes ≠ 0 := by
      have := hiter 0 (Nat.zero_le _)
      simp only [Function.iterate_zero_apply] at this
      omega
    rw [if_pos ⟨hbuf, hw⟩]
    have h0 : env.hugeMmap att = .enomem := by
      have := henomem 0 (Nat.succ_pos n)
      rwa [Nat.add_zero] at this
    rw [h0]
    simp only
    have h1 : ¬(hugeShrink env.free_hugepages st.pagesize st.wantbytes < st.pagesize) := by
      have := hiter 1 (by omega)
      simp only [Function.iterate_one] at this
      omega
    rw [if_neg h1]
    have h2 := ih (att + 1) f { st with wantbytes := hugeShrink env.free_hugepages st.pagesize st.wantbytes } a
      (by simp [hbuf]) (by simpa using hps)
      (by intro i hi
          have := henomem (i + 1) (by omega)
          simpa [Nat.add_assoc, Nat.add_comm 1 i] using this)
      (by have := hsucc
          simpa [Nat.add_assoc, Nat.add_comm 1 n] using this)
      (by intro i hi
          have := hiter (i + 1) (by omega)
          simpa [Function.iterate_succ_apply] using this)
      (by omega)
    simp only at h2
    rw [h2]
    simp [Function.iterate_succ_apply]

theorem hugeLoop_enomem_exhaust (env : Env) :
    ∀ (k att fuel : Nat) (st : MemoryAlloc), st.buf = none →
      0 < st.pagesize →
      (∀ i, i ≤ k → env.hugeMmap (att + i) = .enomem) →
      (∀ i, i ≤ k →
        st.pagesize ≤ (hugeShrink env.free_hugepages st.pagesize)^[i] st.wantbytes) →
      (hugeShrink env.free_hugepages st.pagesize)^[k + 1] st.wantbytes < st.pagesize →
      k < fuel →
      hugeLoop env att fuel st = some (.ok { st with
        wantbytes := (hugeShrink env.free_hugepages st.pagesize)^[k + 1] st.wantbytes }) := by
  intro k
  induction k with
  | zero =>
    intro att fuel st hbuf hps henomem hiter hlast hfuel
    obtain ⟨f, rfl⟩ : ∃ f, fuel = f + 1 := ⟨fuel - 1, by omega⟩
    rw [hugeLoop]
    have hw : st.wantbytes ≠ 0 := by
      have := hiter 0 (le_refl 0)
      simp only [Function.iterate_zero_apply] at this
      omega
    rw [if_pos ⟨hbuf, hw⟩]
    have h0 : env.hugeMmap att = .enomem := by
      have := henomem 0 (le_refl 0)
      rwa [Nat.add_zero] at this
    rw [h0]
    simp only
    have h1 : hugeShrink env.free_hugepages st.pagesize st.wantbytes < st.pagesize := by
      simpa [Function.iterate_one] using hlast
    rw [if_pos h1]
    simp [Function.iterate_one]
  | succ n ih =>
    intro att fuel st hbuf hps henomem hiter hlast hfuel
    obtain ⟨f, rfl⟩ : ∃ f, fuel = f + 1 := ⟨fuel - 1, by omega⟩
    rw [hugeLoop]
    have hw : st.wantbytes ≠ 0 := by
      have := hiter 0 (Nat.zero_le _)
      simp only [Function.iterate_zero_apply] at this
      omega
    rw [if_pos ⟨hbuf, hw⟩]
    have h0 : env.hugeMmap att = .enomem := by
      have := henomem 0 (Nat.zero_le _)
      rwa [Nat.add_zero] at this
    rw [h0]
    simp only
    have h1 : ¬(hugeShrink env.free_hugepages st.pagesize st.wantbytes < st.pagesize) := by
      have := hiter 1 (by omega)
      simp only [Function.iterate_one] at this
      omega
    rw [if_neg h1]
    have h2 := ih (att + 1) f { st with wantbytes := hugeShrink env.free_hugepages st.pagesize st.wantbytes }
      (by simp [hbuf]) (by simpa using hps)
      (by intro i hi
          have := henomem (i + 1) (by omega)
          simpa [Nat.add_assoc, Nat.add_comm 1 i] using this)
      (by intro i hi
          have := hiter (i + 1) (by omega)
          simpa [Function.iterate_succ_apply] using this)
      (by simpa [Function.iterate_succ_apply] using hlast)
      (by omega)
    simp only at h2
    rw [h2]
    simp [Function.iterate_succ_apply]

/-! ### Characterization of the test loop -/

theorem lor_self_nat (n : Nat) : n ||| n = n := by
  apply Nat.eq_of_testBit_eq
  intro i
  simp [Nat.testBit_lor]

theorem lor_if_or (ec c : Nat) (p q : Bool) :
    (ec ||| (if p then c else 0)) ||| (if q then c else 0) =
      ec ||| (if (p || q) then c else 0) := by
  cases p <;> cases q <;> simp [Nat.lor_assoc, lor_self_nat]

theorem runFold_char (env : Env) (tm l : Nat) (st : MemoryAlloc) :
    ∀ (L : List Nat) (ec : Nat) (acc : List Invo),
      L.foldl
        (fun acc2 i =>
          if testSelected tm i then
            (acc2.1 ||| (if env.testFail l i then EXIT_FAIL_OTHERTEST else 0),
             acc2.2 ++ [Invo.patTest l i (bufaOf st) (bufbOf st) (countOf st)])
          else acc2) (ec, acc) =
      (ec ||| (if (L.filter (testSelected tm)).any (fun i => env.testFail l i)
                 then EXIT_FAIL_OTHERTEST else 0),
       acc ++ (L.filter (testSelected tm)).map
         (fun i => Invo.patTest l i (bufaOf st) (bufbOf st) (countOf st))) := by
  intro L
  induction L with
  | nil => intro ec acc; simp
  | cons a L ih =>
    intro ec acc
    by_cases hsel : testSelected tm a
    · rw [List.foldl_cons, if_pos hsel, ih, List.filter_cons_of_pos hsel]
      rw [List.any_cons, lor_if_or]
      simp [Bool.or_comm]
    · rw [List.foldl_cons, if_neg hsel, ih, List.filter_cons_of_neg hsel]

theorem runPass_char (env : Env) (tm : Nat) (st : MemoryAlloc) (l ec : Nat) :
    runPass env tm st l ec = (ec ||| passExitOne env tm l, passInvos tm st l) := by
  rw [runPass, runFold_char]
  simp [passExitOne, passInvos, selectedIndices, Nat.lor_assoc]

theorem testLoop_zero_none (env : Env) (tm : Nat) (st : MemoryAlloc) :
    ∀ (fuel l ec : Nat) (tr : List Invo), testLoop env tm st 0 fuel l ec tr = none := by
  intro fuel
  induction fuel with
  | zero => intro l ec tr; rfl
  | succ f ih =>
    intro l ec tr
    rw [testLoop, if_pos (Or.inl rfl)]
    exact ih _ _ _

theorem testLoop_char (env : Env) (tm : Nat) (st : MemoryAlloc) (N : Nat) (hN : N ≠ 0) :
    ∀ (fuel l ec : Nat) (tr : List Invo), l ≤ N + 1 → N + 1 - l < fuel →
      testLoop env tm st N fuel l ec tr =
        some (ec ||| passesExit env tm l (N + 1 - l),
              tr ++ passesTrace tm st l (N + 1 - l)) := by
  intro fuel
  induction fuel with
  | zero => intro l ec tr hl hfuel; exact absurd hfuel (Nat.not_lt_zero _)
  | succ f ih =>
    intro l ec tr hl hfuel
    by_cases hle : l ≤ N
    · rw [testLoop, if_pos (Or.inr hle)]
      simp only [runPass_char]
      rw [ih (l + 1) _ _ (by omega) (by omega)]
      have hrange : List.range' l (N + 1 - l) = l :: List.range' (l + 1) (N - l) := by
        rw [show N + 1 - l = (N - l) + 1 by omega]
        rfl
      have hn1 : N + 1 - (l + 1) = N - l := by omega
      simp only [hn1, passesExit, passesTrace, hrange, List.foldr_cons, Nat.lor_assoc,
        List.append_assoc]
    · have hl1 : l = N + 1 := by omega
      have hguard : ¬(N = 0 ∨ l ≤ N) := by
        rintro (h | h)
        · exact hN h
        · exact hle h
      rw [testLoop, if_neg hguard]
      have h0 : N + 1 - l = 0 := by omega
      simp [h0, passesExit, passesTrace]

theorem foldr_passExit (env : Env) (tm : Nat) :
    ∀ L : List Nat,
      L.foldr (fun j acc => passExitOne env tm j ||| acc) 0 =
        (if L.any env.stuckFail then EXIT_FAIL_ADDRESSLINES else 0) |||
          (if L.any (fun j => (selectedIndices tm).any (fun i => env.testFail j i))
             then EXIT_FAIL_OTHERTEST else 0) := by
  intro L
  induction L with
  | nil => simp
  | cons a L ih =>
    rw [List.foldr_cons, ih]
    cases hsa : env.stuckFail a <;>
      cases hoa : (selectedIndices tm).any (fun i => env.testFail a i) <;>
      cases hS : L.any env.stuckFail <;>
      cases hO : L.any (fun j => (selectedIndices tm).any (fun i => env.testFail j i)) <;>
      simp [passExitOne, hsa, hoa, hS, hO, EXIT_FAIL_ADDRESSLINES, EXIT_FAIL_OTHERTEST]

theorem passesExit_flags (env : Env) (tm l n : Nat) :
    passesExit env tm l n =
      (if (List.range' l n).any env.stuckFail then EXIT_FAIL_ADDRESSLINES else 0) |||
        (if (List.range' l n).any
             (fun j => (selectedIndices tm).any (fun i => env.testFail j i))
           then EXIT_FAIL_OTHERTEST else 0) :=
  foldr_passExit env tm (List.range' l n)

theorem passesTrace_countStuck (tm : Nat) (st : MemoryAlloc) :
    ∀ (n l : Nat), (passesTrace tm st l n).countP (fun x => x.isStuck) = n := by
  intro n
  induction n with
  | zero => intro l; simp [passesTrace]
  | succ m ih =>
    intro l
    have hrange : List.range' l (m + 1) = l :: List.range' (l + 1) m := rfl
    have hmap : ((selectedIndices tm).map
        (fun i => Invo.patTest l i (bufaOf st) (bufbOf st) (countOf st))).countP
          (fun x => x.isStuck) = 0 := by
      rw [List.countP_eq_zero]
      intro x hx
      obtain ⟨i, _, rfl⟩ := List.mem_map.mp hx
      simp [Invo.isStuck]
    have h2 := ih (l + 1)
    simp only [passesTrace, hrange, List.foldr_cons] at h2 ⊢
    rw [List.countP_append, passInvos, List.countP_cons, hmap, h2]
    simp [Invo.isStuck]
    omega

theorem testLoop_trace_mem (env : Env) (tm : Nat) (st : MemoryAlloc) (N : Nat) :
    ∀ (fuel l ec : Nat) (tr : List Invo) (ec2 : Nat) (tr2 : List Invo),
      testLoop env tm st N fuel l ec tr = some (ec2, tr2) →
      ∀ x ∈ tr2, x ∈ tr ∨ ∃ j, x ∈ passInvos tm st j := by
  intro fuel
  induction fuel with
  | zero => intro l ec tr ec2 tr2 h; simp [testLoop] at h
  | succ f ih =>
    intro l ec tr ec2 tr2 h
    rw [testLoop] at h
    split at h
    · simp only [runPass_char] at h
      intro x hx
      rcases ih _ _ _ _ _ h x hx with hmem | hmem
      · rcases List.mem_append.mp hmem with h2 | h2
        · exact Or.inl h2
        · exact Or.inr ⟨l, h2⟩
      · exact Or.inr hmem
    · cases h
      intro x hx
      exact Or.inl hx

theorem passInvos_count (tm : Nat) (st : MemoryAlloc) (j : Nat) :
    ∀ x ∈ passInvos tm st j, x.count = stuckCountOf st ∨ x.count = countOf st := by
  intro x hx
  rcases List.mem_cons.mp hx with h | h
  · subst h; exact Or.inl rfl
  · obtain ⟨i, _, rfl⟩ := List.mem_map.mp h
    exact Or.inr rfl

/-! ### Path lemmas for mainAcquire -/

theorem pageAlignAdjust_of_aligned {st : MemoryAlloc} (h : st.buf.getD 0 % st.pagesize = 0) :
    pageAlignAdjust st = { st with aligned := st.buf.getD 0 } := by
  rw [pageAlignAdjust]
  simp [h]

theorem mainAcquire_heap (cfg : Config) (env : Env) (fH fI fO : Nat)
    (hphys : cfg.use_phys = false) (hhuge : cfg.use_hugepages = false)
    (hmax : ¬(cfg.wantbytes_orig >>> 20 > maxmb))
    (hps : memtester_pagesize cfg.use_hugepages env.sysconf_pagesize ≤ cfg.wantbytes_orig) :
    mainAcquire cfg env fH fI fO =
      (doneMemLoop env fO fI (initAlloc cfg env) cfg.wantbytes_orig).map
        (fun st => .ok (pageAlignAdjust st)) := by
  rw [mainAcquire]
  rw [if_neg hmax, if_neg (by simp only [initAlloc]; omega)]
  rw [hphys]
  simp only [Bool.false_eq_true, if_false, initAlloc, hhuge]
  cases doneMemLoop env fO fI
      { buf := none, aligned := 0, wantbytes := cfg.wantbytes_orig, bufsize := 0,
        do_mlock := true, use_hugepages := false,
        pagesize := memtester_pagesize false env.sysconf_pagesize } cfg.wantbytes_orig with
  | none => rfl
  | some st => rfl

theorem mainAcquire_huge (cfg : Config) (env : Env) (fH fI fO : Nat)
    (hphys : cfg.use_phys = false) (hhuge : cfg.use_hugepages = true)
    (hmax : ¬(cfg.wantbytes_orig >>> 20 > maxmb))
    (hps : memtester_pagesize cfg.use_hugepages env.sysconf_pagesize ≤ cfg.wantbytes_orig) :
    mainAcquire cfg env fH fI fO =
      match alloc_using_hugepages env fH (initAlloc cfg env) with
      | none => none
      | some (.error c) => some (.error c)
      | some (.ok st2) => some (.ok (pageAlignAdjust st2)) := by
  rw [mainAcquire]
  rw [if_neg hmax, if_neg (by simp only [initAlloc]; omega)]
  rw [hphys]
  simp only [Bool.false_eq_true, if_false, initAlloc, hhuge, if_true]

theorem wantmb_ok (S : Nat) (h : S < SIZE_MOD) : ¬(S >>> 20 > maxmb) := by
  rw [Nat.shiftRight_eq_div_pow]
  have h1 : S / 2 ^ 20 ≤ (SIZE_MOD - 1) / 2 ^ 20 := Nat.div_le_div_right (by omega)
  have h2 : (SIZE_MOD - 1) / 2 ^ 20 = 17592186044415 := by norm_num [SIZE_MOD]
  have h3 : maxmb = 17592186044416 := by
    norm_num [maxmb, maxbytes, SIZE_MOD, Nat.shiftRight_eq_div_pow]
  omega

theorem alloc_malloc_misaligned (env : Env) (st : MemoryAlloc) (orig a fi : Nat)
    (hbuf : st.buf = none) (hw : st.wantbytes ≠ 0) (hml : st.do_mlock = true)
    (hmalloc : env.malloc st.wantbytes = some a)
    (hmis : a % st.pagesize ≠ 0)
    (hmlock : ∀ x l, env.mlock x l = none) :
    alloc_using_malloc env (fi + 1) st orig =
      some ({ st with
        buf := some a
        aligned := a / st.pagesize * st.pagesize + st.pagesize
        bufsize := toCInt st.wantbytes -
          (((a / st.pagesize * st.pagesize + st.pagesize : Nat) : Int) - (a : Int)) }, true) := by
  have hloop : mallocLoop env (fi + 1) st = some { st with buf := some a } := by
    rw [mallocLoop, if_pos ⟨hbuf, hw⟩, hmalloc]
  have hml2 : ({ st with buf := some a, bufsize := toCInt st.wantbytes } : MemoryAlloc).do_mlock
      = true := hml
  simp only [alloc_using_malloc, hloop]
  rw [if_pos hml2]
  rw [pageAlignAdjust]
  simp only [Option.getD_some]
  rw [if_pos hmis]
  rw [hmlock]

theorem pageAlignAdjust_buf (st : MemoryAlloc) : (pageAlignAdjust st).buf = st.buf := by
  rw [pageAlignAdjust]
  split <;> rfl

theorem alloc_malloc_locked (env : Env) (st : MemoryAlloc) (orig fI : Nat)
    (p : MemoryAlloc × Bool)
    (hbuf : st.buf = none) (hml : st.do_mlock = true)
    (halign : ∀ n a2, env.malloc n = some a2 → a2 % st.pagesize = 0)
    (hmlock : ∀ x l, env.mlock x l = none)
    (h : alloc_using_malloc env fI st orig = some p) :
    p.2 = true ∧ p.1.bufsize = toCInt p.1.wantbytes ∧
      (p.1.buf.isSome = true → p.1.wantbytes ≠ 0) ∧
      (∀ a2, p.1.buf = some a2 → env.malloc p.1.wantbytes = some a2) ∧
      (∀ a2, p.1.buf = some a2 → a2 % st.pagesize = 0) ∧ p.1.pagesize = st.pagesize := by
  cases hloopv : mallocLoop env fI st with
  | none => rw [alloc_using_malloc, hloopv] at h; cases h
  | some st1 =>
    obtain ⟨ha, hb, hc, hd, he, hbufcase⟩ := mallocLoop_basic env fI st st1 hloopv
    have hbufcase2 : st1.buf = none ∨
        (env.malloc st1.wantbytes = st1.buf ∧ st1.buf.isSome = true ∧ st1.wantbytes ≠ 0) := by
      rcases hbufcase with hsame | hr
      · exact Or.inl (hsame.trans hbuf)
      · exact Or.inr hr
    have haddr : st1.buf.getD 0 % st1.pagesize = 0 := by
      rcases hbufcase2 with hnone | ⟨hmal, hsome, _⟩
      · simp [hnone]
      · obtain ⟨a2, ha2⟩ := Option.isSome_iff_exists.mp hsome
        rw [ha2] at hmal
        rw [ha2]
        simpa [hd] using halign _ _ hmal
    rw [alloc_using_malloc, hloopv] at h
    simp only [hc, hml, if_true, pageAlignAdjust, haddr, ne_eq, not_true_eq_false, if_false,
      hmlock, Option.getD_some, Option.some.injEq] at h
    subst h
    refine ⟨rfl, rfl, ?_, ?_, ?_, hd⟩
    · intro hsome2
      rcases hbufcase2 with hnone | ⟨_, _, hw⟩
      · simp [hnone] at hsome2
      · exact hw
    · intro a2 ha2
      simp only at ha2
      rcases hbufcase2 with hnone | ⟨hmal, _, _⟩
      · rw [hnone] at ha2; cases ha2
      · rw [ha2] at hmal
        exact hmal
    · intro a2 ha2
      simp only at ha2
      rcases hbufcase2 with hnone | ⟨hmal, _, _⟩
      · rw [hnone] at ha2; cases ha2
      · rw [ha2] at hmal
        exact halign _ _ hmal

/-! ### Claim theorems -/

/-- Claim C3: when pinning is requested and the `mlock` attempt on the
aligned buffer fails, `alloc_using_malloc` reacts as follows: a
resource-limit errno (EAGAIN or ENOMEM) frees the buffer, shrinks the
request by one page and returns not-done with pinning still requested
(main's `while (!done_mem)` loop then restarts allocation); EPERM
permanently clears `do_mlock`, frees the buffer, resets the request to the
original size and returns not-done; any other errno clears `do_mlock` but
keeps the allocated buffer and returns done. -/
theorem claim_C3 (env : Env) (st : MemoryAlloc) (orig a : Nat) (e : Errno) (fuel : Nat)
    (hbuf : st.buf = none) (hw : st.wantbytes ≠ 0) (hml : st.do_mlock = true)
    (hmalloc : env.malloc st.wantbytes = some a)
    (hlock :
      env.mlock (pageAlignAdjust { st with buf := some a, bufsize := toCInt st.wantbytes }).aligned
        (toSizeT
          (pageAlignAdjust { st with buf := some a, bufsize := toCInt st.wantbytes }).bufsize) =
        some e) :
    ((e = .EAGAIN ∨ e = .ENOMEM) →
      (alloc_using_malloc env (fuel + 1) st orig).map
          (fun p => (p.2, p.1.buf, p.1.wantbytes, p.1.do_mlock)) =
        some (false, none, subSize st.wantbytes st.pagesize, true)) ∧
    (e = .EPERM →
      (alloc_using_malloc env (fuel + 1) st orig).map
          (fun p => (p.2, p.1.buf, p.1.wantbytes, p.1.do_mlock)) =
        some (false, none, orig, false)) ∧
    (e = .otherErr →
      (alloc_using_malloc env (fuel + 1) st orig).map
          (fun p => (p.2, p.1.buf, p.1.wantbytes, p.1.do_mlock)) =
        some (true, some a, st.wantbytes, false)) := by
  have hloop : mallocLoop env (fuel + 1) st = some { st with buf := some a } := by
    rw [mallocLoop, if_pos ⟨hbuf, hw⟩, hmalloc]
  have hst2 : ({ st with buf := some a } : MemoryAlloc).do_mlock = true := hml
  refine ⟨?_, ?_, ?_⟩
  · rintro (rfl | rfl) <;>
    · simp only [alloc_using_malloc, hloop]
      rw [if_pos hst2, hlock]
      simp [pageAlignAdjust]
      split <;> simp [hml]
  · rintro rfl
    simp only [alloc_using_malloc, hloop]
    rw [if_pos hst2, hlock]
    simp [pageAlignAdjust]
  · rintro rfl
    simp only [alloc_using_malloc, hloop]
    rw [if_pos hst2, hlock]
    simp [pageAlignAdjust]
    split <;> simp [hml]

/-- Witness for C3: concrete runs through all three error branches (EAGAIN
shrinks and retries pinned; EPERM restarts unpinned at the original size;
an unknown errno keeps the region unpinned and finishes). -/
theorem claim_C3_witness :
    ((alloc_using_malloc envC3E 1 stC3 8192).map
        (fun p => (p.2, p.1.buf, p.1.wantbytes, p.1.do_mlock)) =
      some (false, none, 4096, true)) ∧
    ((alloc_using_malloc envC3P 1 stC3 8192).map
        (fun p => (p.2, p.1.buf, p.1.wantbytes, p.1.do_mlock)) =
      some (false, none, 8192, false)) ∧
    ((alloc_using_malloc envC3U 1 stC3 8192).map
        (fun p => (p.2, p.1.buf, p.1.wantbytes, p.1.do_mlock)) =
      some (true, some 16384, 8192, false)) := by
  refine ⟨?_, ?_, ?_⟩
  · have h := (claim_C3 envC3E stC3 8192 16384 .EAGAIN 0 rfl (by decide) rfl rfl rfl).1
      (Or.inl rfl)
    rw [h]
    decide
  · exact (claim_C3 envC3P stC3 8192 16384 .EPERM 0 rfl (by decide) rfl rfl rfl).2.1 rfl
  · exact (claim_C3 envC3U stC3 8192 16384 .otherErr 0 rfl (by decide) rfl rfl rfl).2.2 rfl

/-- Claim C10: on the heap path with pinning enabled, when `malloc` returns
a base address that is not page-aligned (and the pin succeeds), the
alignment skip `pagesize - base % pagesize` is subtracted from `bufsize`
twice — once inside `alloc_using_malloc` before the `mlock`, and once more
by the alignment block of `main` — so the finally tested region is
`wantbytes - 2 * skip` bytes: smaller by the skip than the
`wantbytes - skip` bytes that are actually usable after alignment. -/
theorem claim_C10 (cfg : Config) (env : Env) (fH fI fO a : Nat)
    (hphys : cfg.use_phys = false) (hhuge : cfg.use_hugepages = false)
    (hS31 : cfg.wantbytes_orig < 2 ^ 31)
    (hps : 0 < env.sysconf_pagesize)
    (hple : env.sysconf_pagesize ≤ cfg.wantbytes_orig)
    (hmalloc : env.malloc cfg.wantbytes_orig = some a)
    (hmis : a % env.sysconf_pagesize ≠ 0)
    (hmlock : ∀ x l, env.mlock x l = none)
    (hfI : 0 < fI) (hfO : 0 < fO) :
    (mainAcquire cfg env fH fI fO).map (Except.map (fun st => (st.bufsize, st.aligned))) =
      some (.ok ((cfg.wantbytes_orig : Int) -
          2 * ((env.sysconf_pagesize - a % env.sysconf_pagesize : Nat) : Int),
        a / env.sysconf_pagesize * env.sysconf_pagesize + env.sysconf_pagesize)) := by
  obtain ⟨fi, rfl⟩ : ∃ fi, fI = fi + 1 := ⟨fI - 1, by omega⟩
  obtain ⟨fo, rfl⟩ : ∃ fo, fO = fo + 1 := ⟨fO - 1, by omega⟩
  rw [mainAcquire_heap cfg env fH (fi + 1) (fo + 1) hphys hhuge
    (wantmb_ok _ (by simp only [SIZE_MOD]; omega))
    (by simpa [memtester_pagesize, hhuge] using hple)]
  rw [doneMemLoop]
  rw [alloc_malloc_misaligned env (initAlloc cfg env) cfg.wantbytes_orig a fi rfl
    (by simp only [initAlloc]; omega) rfl hmalloc
    (by simp only [initAlloc, memtester_pagesize, hhuge, Bool.false_eq_true, if_false]
        exact hmis)
    hmlock]
  simp only [initAlloc, memtester_pagesize, hhuge, Bool.false_eq_true, if_false,
    Option.map_some']
  rw [pageAlignAdjust]
  simp only [Option.getD_some]
  rw [if_pos hmis]
  have hskip : (((a / env.sysconf_pagesize * env.sysconf_pagesize + env.sysconf_pagesize : Nat) :
        Int) - (a : Int)) =
      ((env.sysconf_pagesize - a % env.sysconf_pagesize : Nat) : Int) := by
    have hq : a / env.sysconf_pagesize * env.sysconf_pagesize + a % env.sysconf_pagesize = a := by
      rw [Nat.mul_comm (a / env.sysconf_pagesize) env.sysconf_pagesize]
      exact Nat.div_add_mod a env.sysconf_pagesize
    have hr : a % env.sysconf_pagesize < env.sysconf_pagesize := Nat.mod_lt a hps
    generalize a / env.sysconf_pagesize * env.sysconf_pagesize = B at hq ⊢
    omega
  simp only [Option.map_some', Except.map, hskip, toCInt_small hS31]
  simp only [Option.some.injEq, Except.ok.injEq, Prod.mk.injEq]
  exact ⟨by ring, trivial⟩

/-- Witness for C10: request 8192 bytes, `malloc` returns the misaligned
address 4100 (skip 4092), `mlock` succeeds; the final `bufsize` is
8192 - 2*4092 = 8, although 8192 - 4092 = 4100 bytes were usable after
alignment. -/
theorem claim_C10_witness :
    (mainAcquire cfgC10 envC10 1 1 1).map (Except.map (fun st => (st.bufsize, st.aligned))) =
      some (.ok (8, 8192)) := by
  have h := claim_C10 cfgC10 envC10 1 1 1 4100 rfl rfl (by decide) (by decide) (by decide)
    rfl (by decide) (fun x l => rfl) (by decide) (by decide)
  rw [h]
  rfl


/-- Claim C1 (amended): for every heap-mode request S with
one page ≤ S < 2^31, under an environment whose `malloc` returns
page-aligned bases and grants no more than the requested S, and whose
`mlock` succeeds, acquisition never exits with an error, and whenever it
completes with a non-NULL buffer the resulting `bufsize` is positive and at
most S.  It is NOT forced to be even (see the counterexample).  The
up-front check exits with the non-starter code whenever the requested size
is below one page.  The bound S < 2^31 is necessary: `bufsize` is a C
`int`, and the final conjunct shows the same benign environment at
S = 2^31 completing acquisition with a buffer whose `bufsize` is -2^31 —
negative, not positive. -/
theorem claim_C1_amended (env : Env) (cfg cfg2 : Config) (fH fI fO : Nat)
    (hphys : cfg.use_phys = false) (hhuge : cfg.use_hugepages = false)
    (hps : 0 < env.sysconf_pagesize)
    (hple : env.sysconf_pagesize ≤ cfg.wantbytes_orig)
    (hS31 : cfg.wantbytes_orig < 2 ^ 31)
    (halign : ∀ n a2, env.malloc n = some a2 → a2 % env.sysconf_pagesize = 0)
    (hbound : ∀ n a2, env.malloc n = some a2 → n ≤ cfg.wantbytes_orig)
    (hmlock : ∀ x l, env.mlock x l = none) :
    (∀ c, mainAcquire cfg env fH fI fO ≠ some (.error c)) ∧
    (∀ st, mainAcquire cfg env fH fI fO = some (.ok st) → st.buf.isSome = true →
      0 < st.bufsize ∧ st.bufsize ≤ (cfg.wantbytes_orig : Int)) ∧
    (cfg2.use_phys = false → cfg2.use_hugepages = false →
      cfg2.wantbytes_orig < env.sysconf_pagesize →
      mainAcquire cfg2 env fH fI fO = some (.error EXIT_FAIL_NONSTARTER)) ∧
    (mainAcquire cfgC1big envC1big 1 1 1 = some (.ok stC1big) ∧
      stC1big.buf.isSome = true ∧ stC1big.bufsize < 0) := by
  have hmax : ¬(cfg.wantbytes_orig >>> 20 > maxmb) :=
    wantmb_ok _ (by simp only [SIZE_MOD]; omega)
  have hheap := mainAcquire_heap cfg env fH fI fO hphys hhuge hmax
    (by simpa [memtester_pagesize, hhuge] using hple)
  refine ⟨?_, ?_, ?_, ?_, rfl, by decide⟩
  case refine_4 => rfl
  · intro c hcontra
    rw [hheap] at hcontra
    cases doneMemLoop env fO fI (initAlloc cfg env) cfg.wantbytes_orig with
    | none => simp at hcontra
    | some stD => simp at hcontra
  · intro st hrun hsome
    rw [hheap] at hrun
    cases hD : doneMemLoop env fO fI (initAlloc cfg env) cfg.wantbytes_orig with
    | none => rw [hD] at hrun; cases hrun
    | some stD =>
      rw [hD] at hrun
      simp only [Option.map_some', Option.some.injEq, Except.ok.injEq] at hrun
      cases fO with
      | zero => cases hD
      | succ fo =>
        rw [doneMemLoop] at hD
        cases halloc : alloc_using_malloc env fI (initAlloc cfg env) cfg.wantbytes_orig with
        | none => rw [halloc] at hD; cases hD
        | some p =>
          have hlocked := alloc_malloc_locked env (initAlloc cfg env) cfg.wantbytes_orig fI p
            rfl rfl
            (by simpa [initAlloc, memtester_pagesize, hhuge] using halign)
            hmlock halloc
          obtain ⟨hdone, hbufsz, hwpos, horigin, hbalign, hpgeq⟩ := hlocked
          rw [halloc] at hD
          obtain ⟨p1, p2⟩ := p
          simp only at hdone
          subst hdone
          simp only [Option.some.injEq] at hD
          subst hD
          subst hrun
          simp only at hbufsz hwpos horigin hbalign hpgeq
          have hbuf2 : (pageAlignAdjust p1).buf = p1.buf := pageAlignAdjust_buf p1
          rw [hbuf2] at hsome
          obtain ⟨a2, ha2⟩ := Option.isSome_iff_exists.mp hsome
          have hal2 : p1.buf.getD 0 % p1.pagesize = 0 := by
            rw [ha2]
            simp only [Option.getD_some]
            rw [hpgeq]
            simpa [initAlloc, memtester_pagesize, hhuge] using hbalign a2 ha2
          rw [pageAlignAdjust_of_aligned hal2]
          simp only
          have hw0 : p1.wantbytes ≠ 0 := hwpos (by rw [ha2]; rfl)
          have hwS : p1.wantbytes ≤ cfg.wantbytes_orig :=
            hbound p1.wantbytes a2 (horigin a2 ha2)
          rw [hbufsz, toCInt_small (by omega)]
          constructor
          · exact_mod_cast Nat.pos_of_ne_zero hw0
          · exact_mod_cast hwS
  · intro hp2 hh2 hlt2
    rw [mainAcquire]
    by_cases hmax2 : cfg2.wantbytes_orig >>> 20 > maxmb
    · rw [if_pos hmax2]
    · rw [if_neg hmax2,
        if_pos (by simpa [initAlloc, memtester_pagesize, hh2] using hlt2)]

/-- Counterexample to C1 as stated: a heap-mode request of S = 4097 bytes
on a 4096-byte-page system (S ≥ one page), granted in full at an aligned
base with a successful pin, ends with `bufsize = 4097`, which is odd — the
claimed "usableBytes is even" is false. -/
theorem claim_C1_counterexample :
    envC1.sysconf_pagesize ≤ cfgC1.wantbytes_orig ∧
    mainAcquire cfgC1 envC1 1 2 2 = some (.ok stC1) ∧
    stC1.buf.isSome = true ∧ stC1.bufsize % 2 = 1 := by
  refine ⟨by decide, ?_, rfl, by decide⟩
  rfl

/-- Witness for the amended C1: the 4097-byte request of the counterexample
environment (S ≥ one page but not a page multiple) acquires a positive
`bufsize` of at most 4097 and never errors; a 100-byte request exits with
the non-starter code. -/
theorem claim_C1_witness :
    (∀ c, mainAcquire cfgC1 envC1 1 2 2 ≠ some (.error c)) ∧
    (0 : Int) < stC1.bufsize ∧ stC1.bufsize ≤ (cfgC1.wantbytes_orig : Int) ∧
    mainAcquire cfgW1b envC1 1 2 2 = some (.error EXIT_FAIL_NONSTARTER) := by
  have halign : ∀ n a2, envC1.malloc n = some a2 → a2 % envC1.sysconf_pagesize = 0 := by
    intro n a2 h2
    simp only [envC1, env0] at h2 ⊢
    split at h2
    · cases h2; decide
    · cases h2
  have hbound : ∀ n a2, envC1.malloc n = some a2 → n ≤ cfgC1.wantbytes_orig := by
    intro n a2 h2
    by_cases hn : n = 4097
    · subst hn; decide
    · simp only [envC1, env0, if_neg hn] at h2
      cases h2
  have h := claim_C1_amended envC1 cfgC1 cfgW1b 1 2 2 rfl rfl (by decide) (by decide)
    (by decide) halign hbound (fun x l => rfl)
  exact ⟨h.1, (h.2.1 stC1 (by rfl) rfl).1, (h.2.1 stC1 (by rfl) rfl).2,
    h.2.2.1 rfl rfl (by decide)⟩

/-- Claim C2 (amended): in huge-page mode the request is first rounded up
to a multiple of the huge-page size, and the kernel free-hugepage count is
read ONCE, before the mmap loop (not on each failure).  Each ENOMEM failure
shrinks the outstanding request by `hugeShrink` — clamp to
`free * pagesize` when the count is positive and smaller than the
outstanding request, else minus one page — and retries, so after k failures
the request is the k-fold iterate of that rule; a subsequent successful
mmap returns that shrunken region.  When the shrunken request drops below
one page the routine does NOT exit: it returns normally with a NULL buffer
and the shrunken `wantbytes` (main then continues). -/
theorem claim_C2_amended (env : Env) (st : MemoryAlloc) (k a fuel : Nat)
    (hbuf : st.buf = none) (hps : 0 < st.pagesize) (hfuel : k < fuel)
    (hiter : ∀ i, i ≤ k → st.pagesize ≤
      (hugeShrink env.free_hugepages st.pagesize)^[i] (roundUpPage st.wantbytes st.pagesize)) :
    ((∀ i, i < k → env.hugeMmap i = .enomem) → env.hugeMmap k = .success a →
      alloc_using_hugepages env fuel st = some (.ok { st with
        buf := some a
        wantbytes :=
          (hugeShrink env.free_hugepages st.pagesize)^[k]
            (roundUpPage st.wantbytes st.pagesize) })) ∧
    ((∀ i, i ≤ k → env.hugeMmap i = .enomem) →
      (hugeShrink env.free_hugepages st.pagesize)^[k + 1]
          (roundUpPage st.wantbytes st.pagesize) < st.pagesize →
      alloc_using_hugepages env fuel st = some (.ok { st with
        wantbytes :=
          (hugeShrink env.free_hugepages st.pagesize)^[k + 1]
            (roundUpPage st.wantbytes st.pagesize) })) := by
  constructor
  · intro henomem hsucc
    rw [alloc_using_hugepages]
    exact hugeLoop_enomem_run env k 0 fuel
      { st with wantbytes := roundUpPage st.wantbytes st.pagesize } a hbuf hps
      (by simpa using henomem) (by simpa using hsucc) (by simpa using hiter) hfuel
  · intro henomem hlast
    rw [alloc_using_hugepages]
    exact hugeLoop_enomem_exhaust env k 0 fuel
      { st with wantbytes := roundUpPage st.wantbytes st.pagesize } hbuf hps
      (by simpa using henomem) (by simpa using hiter) (by simpa using hlast) hfuel

/-- Counterexample to C2 as stated: huge-page mode, request one huge page,
zero free huge pages, every mmap attempt fails with ENOMEM.  The request
shrinks below one page, but the program does not fail fatally: the whole
run completes, the stuck-address test runs over a NULL, zero-sized buffer,
and the process exits 0. -/
theorem claim_C2_counterexample :
    mainRun cfgC2 env0 2 1 1 2 = some (.ok (0, [Invo.stuckAddr 1 0 0], stC2)) ∧
    stC2.buf = none ∧ stC2.wantbytes < stC2.pagesize := by
  refine ⟨?_, rfl, by decide⟩
  rfl

/-- Witness for the amended C2: with one free huge page, a 10-byte request
with page size 4 rounds up to 12; the first attempt fails with ENOMEM and
is clamped to free*pagesize = 4, the second succeeds at address 64.  With
zero free pages and nothing but ENOMEM, the request shrinks 12, 8, 4, then
0 < 4, and the routine returns normally with a NULL buffer and
`wantbytes = 0`. -/
theorem claim_C2_witness :
    alloc_using_hugepages envC2i 3 stC2w =
      some (.ok { stC2w with buf := some 64, wantbytes := 4 }) ∧
    alloc_using_hugepages envC2ii 4 stC2w =
      some (.ok { stC2w with wantbytes := 0 }) := by
  constructor
  · have h := (claim_C2_amended envC2i stC2w 1 64 3 rfl (by decide) (by decide)
      (by decide)).1 (by decide) rfl
    rw [h]
    rfl
  · have h := (claim_C2_amended envC2ii stC2w 2 0 4 rfl (by decide) (by decide)
      (by decide)).2 (by decide) (by decide)
    rw [h]
    rfl

/-- Claim C4 (amended): for any region state with an in-range `bufsize`,
the derived halves are equal-length and contiguous, but their union covers
exactly the usable bytes IF AND ONLY IF `bufsize` is even; nothing forces
`bufsize` to be even, and when it is odd the final byte is covered by
neither half (see the counterexample). -/
theorem claim_C4_amended (st : MemoryAlloc) (h0 : 0 ≤ st.bufsize) (h31 : st.bufsize < 2 ^ 31) :
    (halfA st).2 = (halfB st).2 ∧
    (halfB st).1 = ((halfA st).1 + (halfA st).2) % SIZE_MOD ∧
    ((halfA st).2 + (halfB st).2 = toSizeT st.bufsize ↔ 2 ∣ toSizeT st.bufsize) := by
  refine ⟨rfl, rfl, ?_⟩
  obtain ⟨n, hn⟩ : ∃ n : Nat, st.bufsize = (n : Int) :=
    ⟨st.bufsize.toNat, (Int.toNat_of_nonneg h0).symm⟩
  have hn31 : n < 2 ^ 31 := by omega
  have htd : Int.tdiv (st.bufsize) 2 = ((n / 2 : Nat) : Int) := by rw [hn]; rfl
  have h1 : toSizeT st.bufsize = n := by
    rw [hn, toSizeT_ofNat (by simp only [SIZE_MOD]; omega)]
  have h2 : halflenOf st = n / 2 := by
    rw [halflenOf, htd, toSizeT_ofNat (by simp only [SIZE_MOD]; omega)]
  simp only [halfA, halfB, h1, h2]
  omega

/-- Counterexample to C4 as stated: an acquired region of 12289 bytes (three
pages plus one byte, all granted) yields halves of 6144 bytes each, whose
union is 12288 bytes — not the 12289 usable bytes; `bufsize` was never
forced even. -/
theorem claim_C4_counterexample :
    mainAcquire cfgC4 envC4 1 2 2 = some (.ok stC4) ∧
    (halfA stC4).2 = (halfB stC4).2 ∧
    (halfA stC4).2 + (halfB stC4).2 ≠ toSizeT stC4.bufsize ∧
    toSizeT stC4.bufsize % 2 = 1 := by
  refine ⟨?_, rfl, by decide, by decide⟩
  rfl

/-- Witness for the amended C4: the even-`bufsize` state `stW5` (8192
bytes) has equal halves whose union is exactly the usable size. -/
theorem claim_C4_witness :
    (halfA stW5).2 = (halfB stW5).2 ∧
    (halfA stW5).2 + (halfB stW5).2 = toSizeT stW5.bufsize := by
  have h := claim_C4_amended stW5 (by decide) (by decide)
  exact ⟨h.1, h.2.2.mpr (by decide)⟩

theorem physAcquire_error (env : Env) (st : MemoryAlloc) (c : Nat)
    (h : physAcquire env st = .error c) : c = EXIT_FAIL_NONSTARTER := by
  rw [physAcquire] at h
  split at h
  · cases h; rfl
  · split at h
    · cases h; rfl
    · simp at h

theorem mainAcquire_error (cfg : Config) (env : Env) (fH fI fO c : Nat)
    (h : mainAcquire cfg env fH fI fO = some (.error c)) : c = EXIT_FAIL_NONSTARTER := by
  by_cases h1 : cfg.wantbytes_orig >>> 20 > maxmb
  · rw [mainAcquire, if_pos h1] at h
    simp only [Option.some.injEq, Except.error.injEq] at h
    exact h.symm
  by_cases h2 : (initAlloc cfg env).wantbytes < (initAlloc cfg env).pagesize
  · rw [mainAcquire, if_neg h1, if_pos h2] at h
    simp only [Option.some.injEq, Except.error.injEq] at h
    exact h.symm
  rw [mainAcquire, if_neg h1, if_neg h2] at h
  by_cases hp : cfg.use_phys = true
  · rw [if_pos hp, hp] at h
    cases hphys : physAcquire env (initAlloc cfg env) with
    | error c2 =>
      rw [hphys] at h
      simp only [Option.some.injEq, Except.error.injEq] at h
      subst h
      exact physAcquire_error env _ _ hphys
    | ok st1 =>
      rw [hphys] at h
      simp only at h
      by_cases hh : st1.use_hugepages = true
      · rw [if_pos hh] at h
        cases hhug : alloc_using_hugepages env fH st1 with
        | none => rw [hhug] at h; cases h
        | some r =>
          rw [hhug] at h
          cases r with
          | error c2 =>
            simp only [Option.some.injEq, Except.error.injEq] at h
            subst h
            exact hugeLoop_error env fH 0 _ _ (by rw [alloc_using_hugepages] at hhug; exact hhug)
          | ok st2 => simp at h
      · rw [if_neg hh] at h
        simp only [if_true] at h
        simp at h
  · have hp2 : cfg.use_phys = false := by simpa using hp
    rw [if_neg hp, hp2] at h
    simp only at h
    by_cases hh : (initAlloc cfg env).use_hugepages = true
    · rw [if_pos hh] at h
      cases hhug : alloc_using_hugepages env fH (initAlloc cfg env) with
      | none => rw [hhug] at h; cases h
      | some r =>
        rw [hhug] at h
        cases r with
        | error c2 =>
          simp only [Option.some.injEq, Except.error.injEq] at h
          subst h
          exact hugeLoop_error env fH 0 _ _ (by rw [alloc_using_hugepages] at hhug; exact hhug)
        | ok st2 => simp at h
    · rw [if_neg hh] at h
      simp only [Bool.false_eq_true, if_false] at h
      cases hD : doneMemLoop env fO fI (initAlloc cfg env) cfg.wantbytes_orig with
      | none => rw [hD] at h; simp at h
      | some stD => rw [hD] at h; simp at h

/-- Claim C5: every early (non-starter) exit of acquisition carries exactly
the code 0x01, and the test loop's exit code is the bitwise OR of 0x02 (set
iff the stuck-address test failed in some loop) and 0x04 (set iff some
selected pattern test failed in some loop); a detected fault never aborts —
the invocation trace is the full fixed trace `passesTrace`, which does not
depend on the test outcomes. -/
theorem claim_C5 (cfg : Config) (env env2 : Env) (fH fI fO c tm : Nat)
    (st : MemoryAlloc) (N fuel : Nat) (hN : N ≠ 0) (hfuel : N < fuel) :
    (mainAcquire cfg env fH fI fO = some (.error c) → c = EXIT_FAIL_NONSTARTER) ∧
    (testLoop env2 tm st N fuel 1 0 [] =
      some ((if (List.range' 1 N).any env2.stuckFail then EXIT_FAIL_ADDRESSLINES else 0) |||
              (if (List.range' 1 N).any
                   (fun j => (selectedIndices tm).any (fun i => env2.testFail j i))
                 then EXIT_FAIL_OTHERTEST else 0),
            passesTrace tm st 1 N)) := by
  constructor
  · exact mainAcquire_error cfg env fH fI fO c
  · have h := testLoop_char env2 tm st N hN fuel 1 0 [] (by omega) (by omega)
    rw [h]
    simp [Nat.add_sub_cancel, passesExit_flags]

/-- Witness for C5: a 100-byte request exits with exactly 0x01; a two-loop
run where the stuck-address test fails in loop 1 and pattern test 0 fails
in loop 2 exits with 0x02 ||| 0x04 = 6 while still running every selected
test of both loops. -/
theorem claim_C5_witness :
    mainAcquire cfgW1b envW1 1 1 1 = some (.error EXIT_FAIL_NONSTARTER) ∧
    testLoop envW5 3 stW5 2 4 1 0 [] = some (6, passesTrace 3 stW5 1 2) := by
  constructor
  · rfl
  · have h := (claim_C5 cfgW1b envW1 envW5 1 1 1 EXIT_FAIL_NONSTARTER 3 stW5 2 4
      (by decide) (by decide)).2
    rw [h]
    rfl

/-- Claim C6: each pass runs the stuck-address test and then exactly the
pattern tests whose ordinal bit is set in the selection mask (mask 0 = all),
in table order, each invoked over `(bufa, bufb, count)`; in particular mask
0 selects all fifteen table entries and mask 0x3 selects exactly
TestDescriptor[0] and TestDescriptor[1]. -/
theorem claim_C6 (env : Env) (tm : Nat) (st : MemoryAlloc) (l ec : Nat) :
    (runPass env tm st l ec).2 =
      Invo.stuckAddr l st.aligned (stuckCountOf st) ::
        (selectedIndices tm).map
          (fun i => Invo.patTest l i (bufaOf st) (bufbOf st) (countOf st)) ∧
    (∀ i, i ∈ selectedIndices tm ↔
      (i < testsTable.length ∧ (tm = 0 ∨ (1 <<< i) &&& tm ≠ 0))) ∧
    selectedIndices 0 = List.range testsTable.length ∧
    selectedIndices 3 = [0, 1] := by
  refine ⟨?_, ?_, by decide, by decide⟩
  · rw [runPass_char]
    rfl
  · intro i
    simp [selectedIndices, List.mem_filter, List.mem_range, testSelected, and_comm]

/-- Claim C7: a loop count of 0 makes the test loop run forever (it
terminates within no finite fuel), while a loop count N > 0 executes
exactly N full passes — the trace is the N-pass trace, containing exactly N
stuck-address invocations, each pass being the stuck-address test followed
by the selected pattern tests. -/
theorem claim_C7 (env : Env) (tm : Nat) (st : MemoryAlloc) :
    (∀ fuel l ec tr, testLoop env tm st 0 fuel l ec tr = none) ∧
    (∀ N fuel, N ≠ 0 → N < fuel →
      testLoop env tm st N fuel 1 0 [] =
        some (passesExit env tm 1 N, passesTrace tm st 1 N) ∧
      (passesTrace tm st 1 N).countP (fun x => x.isStuck) = N) := by
  refine ⟨testLoop_zero_none env tm st, ?_⟩
  intro N fuel hN hfuel
  constructor
  · have h := testLoop_char env tm st N hN fuel 1 0 [] (by omega) (by omega)
    rw [h]
    simp [Nat.add_sub_cancel]
  · exact passesTrace_countStuck tm st N 1

/-- Witness for C7: with fuel 5 the zero-loop run does not terminate; a
2-loop run terminates with exactly 2 passes in its trace. -/
theorem claim_C7_witness :
    testLoop envW5 3 stW5 0 5 1 0 [] = none ∧
    testLoop envW5 3 stW5 2 4 1 0 [] =
      some (passesExit envW5 3 1 2, passesTrace 3 stW5 1 2) ∧
    (passesTrace 3 stW5 1 2).countP (fun x => x.isStuck) = 2 := by
  have h := claim_C7 envW5 3 stW5
  exact ⟨h.1 5 1 0 [], (h.2 2 4 (by decide) (by decide)).1,
    (h.2 2 4 (by decide) (by decide)).2⟩


/-- Claim C8: in the physical-device path, a failed `open` or a failed
`mmap` of the fixed physical base is fatal with the non-starter code and no
test runs; on success the device is mapped at exactly the requested size,
which is never renegotiated (`wantbytes` is unchanged and `bufsize` equals
it), and an `mlock` failure on the mapped region only clears `do_mlock`
while the full run (all loops) still takes place. -/
theorem claim_C8 (cfg : Config) (env1 env2 env3 : Env) (fH fI fO fL a : Nat) (e : Errno)
    (hphys : cfg.use_phys = true) (hhuge : cfg.use_hugepages = false)
    (hS : cfg.wantbytes_orig < 2 ^ 31) :
    (env1.openOk = false → env1.sysconf_pagesize ≤ cfg.wantbytes_orig →
      mainRun cfg env1 fH fI fO fL = some (.error EXIT_FAIL_NONSTARTER)) ∧
    (env2.openOk = true → env2.physMmap cfg.wantbytes_orig = none →
      env2.sysconf_pagesize ≤ cfg.wantbytes_orig →
      mainRun cfg env2 fH fI fO fL = some (.error EXIT_FAIL_NONSTARTER)) ∧
    (env3.openOk = true → env3.physMmap cfg.wantbytes_orig = some a →
      a % env3.sysconf_pagesize = 0 → env3.sysconf_pagesize ≤ cfg.wantbytes_orig →
      env3.mlock a cfg.wantbytes_orig = some e →
      cfg.loops ≠ 0 → cfg.loops < fL →
      (mainRun cfg env3 fH fI fO fL).map
          (Except.map (fun t => (t.2.2.do_mlock, t.2.2.bufsize, t.2.2.wantbytes,
            t.2.1.countP (fun x => x.isStuck)))) =
        some (.ok (false, (cfg.wantbytes_orig : Int), cfg.wantbytes_orig, cfg.loops))) := by
  have hmax : ¬(cfg.wantbytes_orig >>> 20 > maxmb) :=
    wantmb_ok _ (by simp only [SIZE_MOD]; omega)
  refine ⟨?_, ?_, ?_⟩
  · intro ho hple
    rw [mainRun, mainAcquire, if_neg hmax,
      if_neg (show ¬((initAlloc cfg env1).wantbytes < (initAlloc cfg env1).pagesize) by
        simp only [initAlloc, memtester_pagesize, hhuge, Bool.false_eq_true, if_false]
        omega)]
    rw [hphys]
    simp only [if_true, physAcquire, ho, Bool.not_false, if_true]
  · intro ho hmap hple
    rw [mainRun, mainAcquire, if_neg hmax,
      if_neg (show ¬((initAlloc cfg env2).wantbytes < (initAlloc cfg env2).pagesize) by
        simp only [initAlloc, memtester_pagesize, hhuge, Bool.false_eq_true, if_false]
        omega)]
    rw [hphys]
    simp only [if_true, physAcquire, ho, Bool.not_true, Bool.false_eq_true, if_false, initAlloc]
    rw [hmap]
  · intro ho hmap hal hple hml hN hfL
    rw [mainRun, mainAcquire, if_neg hmax,
      if_neg (show ¬((initAlloc cfg env3).wantbytes < (initAlloc cfg env3).pagesize) by
        simp only [initAlloc, memtester_pagesize, hhuge, Bool.false_eq_true, if_false]
        omega)]
    rw [hphys]
    simp only [if_true, physAcquire, ho, Bool.not_true, Bool.false_eq_true, if_false, initAlloc]
    rw [hmap]
    simp only [hml, Option.isSome_some, if_true, hhuge, Bool.false_eq_true, if_false,
      memtester_pagesize, pageAlignAdjust, Option.getD_some, hal, ne_eq, not_true_eq_false]
    rw [testLoop_char env3 cfg.testmask _ cfg.loops hN fL 1 0 [] (by omega) (by omega)]
    simp only [Option.map_some', Except.map, List.nil_append]
    rw [passesTrace_countStuck]
    simp only [Nat.add_sub_cancel, toCInt_small hS]

/-- Witness for C8: a failed open and a failed physical mmap both exit with
0x01; with the mapping granted at 12288 and `mlock` failing, the run
completes one full pass with pinning disabled and `bufsize` = the requested
8192. -/
theorem claim_C8_witness :
    mainRun cfgC8 envC8a 1 1 1 2 = some (.error EXIT_FAIL_NONSTARTER) ∧
    mainRun cfgC8 envC8b 1 1 1 2 = some (.error EXIT_FAIL_NONSTARTER) ∧
    (mainRun cfgC8 envC8c 1 1 1 2).map
        (Except.map (fun t => (t.2.2.do_mlock, t.2.2.bufsize, t.2.2.wantbytes,
          t.2.1.countP (fun x => x.isStuck)))) =
      some (.ok (false, (8192 : Int), 8192, 1)) := by
  have h := claim_C8 cfgC8 envC8a envC8b envC8c 1 1 1 2 12288 .otherErr rfl rfl (by decide)
  exact ⟨h.1 rfl (by decide), h.2.1 rfl rfl (by decide),
    h.2.2 rfl rfl (by decide) (by decide) rfl (by decide) (by decide)⟩


theorem counts_zero {st : MemoryAlloc} (h : st.bufsize = 0) :
    stuckCountOf st = 0 ∧ countOf st = 0 := by
  constructor
  · rw [stuckCountOf, h]
    rfl
  · rw [countOf, halflenOf, h]
    rfl

/-- Claim C9: `alloc_using_hugepages` never writes the `bufsize` field, so
in huge-page mode (mmap returning huge-page-aligned addresses, as the
kernel guarantees) `bufsize` keeps its initial value 0 after acquisition,
and every recorded test invocation of every loop — the stuck-address test
and all pattern tests — receives a word count of 0, regardless of how many
bytes were actually mapped. -/
theorem claim_C9 (cfg : Config) (env : Env) (fH fI fO fL ec : Nat) (tr : List Invo)
    (stF : MemoryAlloc)
    (hphys : cfg.use_phys = false) (hhuge : cfg.use_hugepages = true)
    (halign : ∀ n a, env.hugeMmap n = .success a → a % (2 * 1024 * 1024) = 0)
    (hrun : mainRun cfg env fH fI fO fL = some (.ok (ec, tr, stF))) :
    stF.bufsize = 0 ∧ ∀ x ∈ tr, x.count = 0 := by
  rw [mainRun] at hrun
  cases hacq : mainAcquire cfg env fH fI fO with
  | none => rw [hacq] at hrun; cases hrun
  | some r =>
    rw [hacq] at hrun
    cases r with
    | error c => cases hrun
    | ok st =>
      simp only at hrun
      cases hloop : testLoop env cfg.testmask st cfg.loops fL 1 0 [] with
      | none => rw [hloop] at hrun; cases hrun
      | some p =>
        rw [hloop] at hrun
        obtain ⟨ec2, tr2⟩ := p
        simp only [Option.some.injEq, Except.ok.injEq, Prod.mk.injEq] at hrun
        obtain ⟨rfl, rfl, rfl⟩ := hrun
        -- analyse the acquisition
        by_cases h1 : cfg.wantbytes_orig >>> 20 > maxmb
        · rw [mainAcquire, if_pos h1] at hacq
          cases hacq
        by_cases h2 : (initAlloc cfg env).wantbytes < (initAlloc cfg env).pagesize
        · rw [mainAcquire, if_neg h1, if_pos h2] at hacq
          cases hacq
        rw [mainAcquire, if_neg h1, if_neg h2, hphys] at hacq
        simp only [Bool.false_eq_true, if_false, initAlloc, hhuge, if_true] at hacq
        cases hhug : alloc_using_hugepages env fH
            { buf := none, aligned := 0, wantbytes := cfg.wantbytes_orig, bufsize := 0,
              do_mlock := true, use_hugepages := true,
              pagesize := memtester_pagesize true env.sysconf_pagesize } with
        | none => rw [hhug] at hacq; cases hacq
        | some r2 =>
          rw [hhug] at hacq
          cases r2 with
          | error c2 => cases hacq
          | ok st2 =>
            simp only [Option.some.injEq, Except.ok.injEq] at hacq
            subst hacq
            rw [alloc_using_hugepages] at hhug
            have hinv := hugeLoop_inv env fH 0 _ _ hhug
            simp only at hinv
            obtain ⟨hbs, hba, hdm, hpg, huh, hbufc⟩ := hinv
            have hpg2 : st2.pagesize = 2 * 1024 * 1024 := by
              rw [hpg]
              rfl
            have haddr : st2.buf.getD 0 % st2.pagesize = 0 := by
              rcases hbufc with hb | ⟨n, a, hsucc, hb⟩
              · rw [hb]
                simp [hpg2]
              · rw [hb, hpg2]
                simpa using halign n a hsucc
            have hstF : pageAlignAdjust st2 = { st2 with aligned := st2.buf.getD 0 } :=
              pageAlignAdjust_of_aligned haddr
            have hbs0 : (pageAlignAdjust st2).bufsize = 0 := by
              rw [hstF]
              simpa using hbs
            refine ⟨hbs0, ?_⟩
            intro x hx
            have hmem := testLoop_trace_mem env cfg.testmask (pageAlignAdjust st2) cfg.loops
              fL 1 0 [] ec2 tr2 hloop x hx
            rcases hmem with hmem | ⟨j, hmem⟩
            · cases hmem
            · have hcz := counts_zero hbs0
              rcases passInvos_count cfg.testmask (pageAlignAdjust st2) j x hmem with hc | hc
              · rw [hc, hcz.1]
              · rw [hc, hcz.2]

/-- Witness for C9: a 2 MB huge-page request mapped successfully at the
aligned address 4194304 still runs every test of the loop with word
count 0. -/
theorem claim_C9_witness : stC9.bufsize = 0 ∧ ∀ x ∈ trC9, x.count = 0 := by
  have halign : ∀ n a, envC9.hugeMmap n = .success a → a % (2 * 1024 * 1024) = 0 := by
    intro n a h
    simp only [envC9, env0, MmapOutcome.success.injEq] at h
    subst h
    decide
  exact claim_C9 cfgC9 envC9 2 1 1 2 0 trC9 stC9 rfl rfl halign (by rfl)

end Memtester
